import Mathlib

/-!
Shallow embedding of the `chs` chess rules engine (the `src/game` module with
the `board/` directory implementation), used to check the claims of the
specification against the code.

Conventions of the embedding:
* Rust `i8`/`i32` arithmetic is modelled by `Int`; every value that occurs in
  the embedded computations stays far away from the wrap-around boundaries of
  the machine types, so no explicit truncation is needed.
* A Rust `Vec` used as a stack (`captures`, `moves`, `half_move_clock`) is
  modelled by a `List` whose HEAD is the top of the stack (`push` = cons,
  `pop` = tail, `last()` = `head?`).
* A Rust `panic!`/`expect`/`assert!`/`unwrap` is an abort; fallible functions
  therefore return `Option`, with `none` meaning the program aborts.
* `&mut self` methods are modelled by explicit state passing: a method that
  mutates the board takes a `Board` and returns the updated `Board` alongside
  its result.
-/

namespace Chs

/-- `Color` from `src/game/color.rs`. -/
inductive Color where
  | White
  | Black
deriving DecidableEq, Repr

/-- `impl Not for Color` (`color.rs`). -/
def Color.opp : Color → Color
  | .White => .Black
  | .Black => .White

/-- `Color::get_home` (`color.rs`): index of the home row. -/
def Color.get_home : Color → Int
  | .White => 0
  | .Black => 7

/-- `Color::get_direction` (`color.rs`): row offset representing forwards. -/
def Color.get_direction : Color → Int
  | .White => 1
  | .Black => -1

/-- `PieceType` from `src/game/piece.rs`. -/
inductive PieceType where
  | King
  | Queen
  | Rook
  | Bishop
  | Knight
  | Pawn
deriving DecidableEq, Repr

/-- `PROMOTABLE_TYPES` (`piece.rs`). -/
def PROMOTABLE_TYPES : List PieceType :=
  [.Queen, .Rook, .Bishop, .Knight]

/-- `KNIGHT_MOVES` (`piece.rs` lines 23-32), exactly as written in the source:
the eight entries are the four orthogonal unit offsets, each listed twice. -/
def KNIGHT_MOVES : List (Int × Int) :=
  [(1, 0), (0, 1), (-1, 0), (0, -1), (1, 0), (0, 1), (-1, 0), (0, -1)]

/-- `Piece` (`piece.rs`). -/
structure Piece where
  kind : PieceType
  color : Color
  move_count : Int
deriving DecidableEq, Repr

/-- `Piece::new` (`piece.rs`). -/
def Piece.new (kind : PieceType) (color : Color) : Piece :=
  ⟨kind, color, 0⟩

/-- `Position` (`src/game/position.rs`): a linear board index.  The source
stores an `i8` in `0..64`; `Position::new` asserts `row, col ∈ [0,8)`, and
every call site reached by the computations in this file satisfies that
bound, so the constructor is modelled as total. -/
structure Position where
  val : Int
deriving DecidableEq, Repr

/-- `Position::new` (`position.rs`). -/
def Position.new (row col : Int) : Position :=
  ⟨row * 8 + col⟩

/-- `Position::pos` (`position.rs`): index for the squares array. -/
def Position.pos (p : Position) : Nat :=
  p.val.toNat

/-- `Position::row` (`position.rs`). -/
def Position.row (p : Position) : Int :=
  p.val / 8

/-- `Position::col` (`position.rs`). -/
def Position.col (p : Position) : Int :=
  p.val % 8

/-- `Position::rank` (`position.rs`). -/
def Position.rank (p : Position) : Int :=
  p.row + 1

/-- `Position::offset` (`position.rs`): `None` when the result leaves the
board. -/
def Position.offset (p : Position) (row col : Int) : Option Position :=
  let y := p.row + row
  let x := p.col + col
  if 0 ≤ x ∧ x < 8 ∧ 0 ≤ y ∧ y < 8 then some (Position.new y x) else none

/-- `Turn` (`src/game/turn.rs`).  The Rust fields `from` and `to` are called
`from'` and `to'` here because `from` and `to` are Lean keywords. -/
structure Turn where
  kind : PieceType
  from' : Position
  to' : Position
  capture : Option Position
  additional_move : Option (Position × Position)
  promote_to : Option PieceType
  promote_from : Option PieceType
deriving DecidableEq, Repr

/-- `Turn::new_basic` (`turn.rs`). -/
def Turn.new_basic (kind : PieceType) (f t : Position) : Turn :=
  ⟨kind, f, t, none, none, none, none⟩

/-- `Turn::new_capture` (`turn.rs`). -/
def Turn.new_capture (kind : PieceType) (f t : Position) : Turn :=
  ⟨kind, f, t, some t, none, none, none⟩

/-- `Turn::new_additional` (`turn.rs`). -/
def Turn.new_additional (kind : PieceType) (main other : Position × Position) : Turn :=
  ⟨kind, main.1, main.2, none, some other, none, none⟩

/-- `Turn::new_capture_complex` (`turn.rs`). -/
def Turn.new_capture_complex (kind : PieceType) (f t cap : Position) : Turn :=
  ⟨kind, f, t, some cap, none, none, none⟩

/-- `Turn::new_promotion` (`turn.rs`). -/
def Turn.new_promotion (kind : PieceType) (f t : Position) (promote_to : PieceType)
    (capture : Bool) : Turn :=
  ⟨kind, f, t, if capture then some t else none, none, some promote_to, some kind⟩

/-- `Board` (`src/game/board/mod.rs`). -/
structure Board where
  /-- pieces that have been captured; head = most recently captured -/
  captures : List Piece
  /-- the 8x8 board, 64 entries, index = `Position.pos` -/
  squares : List (Option Piece)
  /-- whose turn it is to move -/
  whose_turn : Color
  /-- executed turns; head = most recent -/
  moves : List Turn
  /-- half-move clock stack; head = current frame -/
  half_move_clock : List Int
  /-- number of full moves -/
  num_moves : Int
  /-- position to target for en passant -/
  en_passant_target : Option Position
deriving DecidableEq, Repr

/-- `impl Default for Board` (`board/mod.rs`). -/
def Board.default : Board :=
  ⟨[], List.replicate 64 none, .White, [], [0], 1, none⟩

/-- `Board::from_start` (`board/mod.rs` lines 54-84).  The piece order of the
back ranks and the pawn rows are written out as the loops of the source
produce them. -/
def Board.from_start : Board :=
  let piece_order : List PieceType := [.Rook, .Knight, .Bishop, .Queen, .King, .Bishop, .Knight, .Rook]
  { Board.default with
    squares :=
      piece_order.map (fun k => some (Piece.new k .White)) ++
      List.replicate 8 (some (Piece.new .Pawn .White)) ++
      List.replicate 32 none ++
      List.replicate 8 (some (Piece.new .Pawn .Black)) ++
      piece_order.map (fun k => some (Piece.new k .Black)) }

/-- `Board::at_position` (`board/mod.rs`). -/
def Board.at_position (b : Board) (p : Position) : Option Piece :=
  (b.squares.getD p.pos none)

/-- `Board::get_prev_turn` (`board/mod.rs`). -/
def Board.get_prev_turn (b : Board) : Option Turn :=
  b.moves.head?

/-- `Piece::could_king_move_to` (`piece.rs`). -/
def Piece.could_king_move_to (f t : Position) : Bool :=
  (f.row - t.row).natAbs ≤ 1 ∧ (f.col - t.col).natAbs ≤ 1

/-- `Piece::could_rook_move_to` (`piece.rs` lines 361-363), exactly as written
in the source: the second disjunct compares `from.col()` with `to.row()`. -/
def Piece.could_rook_move_to (f t : Position) : Bool :=
  f.row = t.row ∨ f.col = t.row

/-- `Piece::could_bishop_move_to` (`piece.rs`). -/
def Piece.could_bishop_move_to (f t : Position) : Bool :=
  f.row - f.col = t.row - t.col ∨ f.row + f.col = t.row + t.col

/-- `Piece::could_queen_move_to` (`piece.rs`). -/
def Piece.could_queen_move_to (f t : Position) : Bool :=
  Piece.could_rook_move_to f t || Piece.could_bishop_move_to f t

/-- `Piece::could_knight_move_to` (`piece.rs`). -/
def Piece.could_knight_move_to (f t : Position) : Bool :=
  let row_diff := (f.row - t.row).natAbs
  let col_diff := (f.col - t.col).natAbs
  (row_diff = 2 ∧ col_diff = 1) ∨ (row_diff = 1 ∧ col_diff = 2)

/-- `Piece::could_pawn_move_to` (`piece.rs` lines 380-419), exactly as
written, including the direction test `row_diff * direction <= 0` on
`row_diff = from.row - to.row`. -/
def Piece.could_pawn_move_to (self : Piece) (f t : Position) (b : Board) : Bool :=
  let col_diff := (f.col - t.col).natAbs
  if 2 ≤ col_diff then false
  else
    let row_diff := f.row - t.row
    if row_diff * self.color.get_direction ≤ 0 then false
    else if f.row ≠ self.color.get_home + self.color.get_direction ∧ row_diff.natAbs ≠ 1 then false
    else if 2 < row_diff.natAbs then false
    else if (b.at_position t).isSome ∧ col_diff = 0 then false
    else if (b.at_position t).isNone ∧ col_diff = 1 then
      match b.get_prev_turn with
      | some turn =>
          if turn.kind = .Pawn ∧ t.row = turn.to'.row ∧
              t.row + self.color.get_direction * 2 = turn.from'.row ∧
              (t.col - turn.to'.col).natAbs = 1
          then true
          else false
      | none => false
    else true

/-- `Piece::could_move_to` (`piece.rs` lines 342-355). -/
def Piece.could_move_to (self : Piece) (f t : Position) (b : Board) : Bool :=
  if f = t then false
  else
    match self.kind with
    | .King => Piece.could_king_move_to f t
    | .Queen => Piece.could_queen_move_to f t
    | .Rook => Piece.could_rook_move_to f t
    | .Bishop => Piece.could_bishop_move_to f t
    | .Knight => Piece.could_knight_move_to f t
    | .Pawn => self.could_pawn_move_to f t b

/-- The `(r, c)` pairs visited by the nested `for r in [-1,0,1] { for c in
[-1,0,1] }` loops of `are_pieces_attacking` and `king_moves`, with `(0,0)`
skipped. -/
def RAY_DIRS : List (Int × Int) :=
  [(-1, -1), (-1, 0), (-1, 1), (0, -1), (0, 1), (1, -1), (1, 0), (1, 1)]

/-- The `while let Some(p) = pos.offset(r, c)` walk of
`Board::are_pieces_attacking` (`board/mod.rs` lines 339-360): walk outward
from `pos`, and at the first occupied square report whether that piece is of
`color` and could move to `target`.  A ray leaves the board within 8 steps,
so fuel 8 is enough. -/
def Board.rayAttacks (b : Board) (target : Position) (color : Color) (r c : Int) :
    Nat → Position → Bool
  | 0, _ => false
  | fuel + 1, pos =>
      match pos.offset r c with
      | none => false
      | some p =>
          match b.at_position p with
          | some piece =>
              if piece.color = color then piece.could_move_to p target b else false
          | none => b.rayAttacks target color r c fuel p

/-- `Board::are_pieces_attacking` (`board/mod.rs` lines 339-376). -/
def Board.are_pieces_attacking (b : Board) (position : Position) (color : Color) : Bool :=
  (RAY_DIRS.any fun rc => b.rayAttacks position color rc.1 rc.2 8 position) ||
  (KNIGHT_MOVES.any fun rc =>
    match position.offset rc.1 rc.2 with
    | some p =>
        match b.at_position p with
        | some piece => piece.kind = .Knight ∧ piece.color = color
        | none => false
    | none => false)

/-- The scan of `Board::find_king`: `for i in 0..64`, return the first index
holding a king of the color.  Written as a single pass over the squares list
(the squares list always has 64 entries, so this visits exactly the squares
the source loop reads through `at_position`). -/
def findKingScan (color : Color) : Nat → List (Option Piece) → Option Position
  | _, [] => none
  | i, sq :: rest =>
      match sq with
      | some piece =>
          if piece.kind = .King ∧ piece.color = color then some ⟨(i : Int)⟩
          else findKingScan color (i + 1) rest
      | none => findKingScan color (i + 1) rest

/-- `Board::find_king` (`board/mod.rs` lines 379-391): first king of the
color in index order; the source panics when there is none. -/
def Board.find_king (b : Board) (color : Color) : Option Position :=
  findKingScan color 0 b.squares

/-- `Board::is_king_attacked` (`board/mod.rs`); `none` when `find_king`
panics. -/
def Board.is_king_attacked (b : Board) (color : Color) : Option Bool :=
  (b.find_king color).map fun kp => b.are_pieces_attacking kp color.opp

/-- `Board::is_50_move_rule` (`board/mod.rs` lines 431-434); the source
unwraps the top of the half-move-clock stack. -/
def Board.is_50_move_rule (b : Board) : Option Bool :=
  b.half_move_clock.head?.map fun c => 100 ≤ c

/-- `Board::is_threefold_repetition` (`board/mod.rs`): a stub that always
reports `false`. -/
def Board.is_threefold_repetition (_ : Board) : Bool :=
  false

/-- The "if a piece is captured, remove it" block of `Board::make_turn`
(`board/turns.rs` lines 9-16): remove and stack the captured piece and push
a fresh half-move-clock frame; `none` models the `expect` panic. -/
def makeTurnCapture (b : Board) (turn : Turn) : Option Board :=
  match turn.capture with
  | some capture =>
      match b.squares.getD capture.pos none with
      | some captured =>
          some { b with
            squares := b.squares.set capture.pos none,
            captures := captured :: b.captures,
            half_move_clock := -1 :: b.half_move_clock }
      | none => none
  | none => some b

/-- The "if it's a pawn push, but not a capture" block of `Board::make_turn`
(`board/turns.rs` lines 17-31): set or clear the en-passant target and push
a fresh half-move-clock frame on a pawn push; otherwise clear the target. -/
def makeTurnPawnPush (b : Board) (turn : Turn) : Board :=
  if turn.kind = .Pawn ∧ turn.capture = none then
    { b with
      en_passant_target :=
        if (turn.to'.row - turn.from'.row).natAbs = 2 then
          some (Position.new ((turn.to'.row + turn.from'.row) / 2) turn.from'.col)
        else none,
      half_move_clock := -1 :: b.half_move_clock }
  else { b with en_passant_target := none }

/-- The "lift and place the second piece" block of `Board::make_turn`
(`board/turns.rs` lines 35-41); `none` models the `expect` and the
`assert!` that the second piece's destination is free. -/
def makeTurnAdditional (b : Board) (turn : Turn) : Option Board :=
  match turn.additional_move with
  | some (f, t) =>
      match b.squares.getD f.pos none with
      | some secondary =>
          let b := { b with squares := b.squares.set f.pos none }
          if (b.squares.getD t.pos none) = none then
            some { b with squares := b.squares.set t.pos (some secondary) }
          else none
      | none => none
  | none => some b

/-- The promotion adjustment and move-count increment of `Board::make_turn`
(`board/turns.rs` lines 43-49). -/
def makeTurnPiece (piece : Piece) (turn : Turn) : Piece :=
  let piece :=
    match turn.promote_to with
    | some promo_kind => { piece with kind := promo_kind }
    | none => piece
  { piece with move_count := piece.move_count + 1 }

/-- The final block of `Board::make_turn` (`board/turns.rs` lines 51-61):
place the main piece (the `assert!` that the target square is free is the
`none` case), increment the half-move-clock frame (`unwrap` on an empty
stack is the other `none`), push the turn, flip the side to move and bump
the full-move number after Black's move. -/
def makeTurnFinish (b : Board) (turn : Turn) (piece : Piece) : Option Board :=
  if (b.squares.getD turn.to'.pos none) ≠ none then none
  else
    let b := { b with squares := b.squares.set turn.to'.pos (some piece) }
    match b.half_move_clock with
    | [] => none
    | c :: rest =>
        let b := { b with
          half_move_clock := (c + 1) :: rest,
          moves := turn :: b.moves,
          whose_turn := b.whose_turn.opp }
        some (if b.whose_turn = .White then { b with num_moves := b.num_moves + 1 } else b)

/-- `Board::make_turn` (`board/turns.rs` lines 8-62 = `board/mod.rs` lines
203-257), assembled from its blocks in source order; `none` models the
panics (`expect`/`assert!`/`unwrap`). -/
def Board.make_turn (b : Board) (turn : Turn) : Option Board := do
  -- If a piece is captured, remove it
  let b ← makeTurnCapture b turn
  -- If it's a pawn push, but not a capture, record that
  let b := makeTurnPawnPush b turn
  -- Lift the main piece
  let piece ← b.squares.getD turn.from'.pos none
  let b := { b with squares := b.squares.set turn.from'.pos none }
  -- Lift and place the second piece
  let b ← makeTurnAdditional b turn
  -- Promote, bump the move count, place the piece, record the turn
  makeTurnFinish b turn (makeTurnPiece piece turn)

/-- The "lift and place the second piece" block of `Board::undo_turn`
(`board/turns.rs` lines 71-76); `none` models the `expect`. -/
def undoTurnAdditional (b : Board) (turn : Turn) : Option Board :=
  match turn.additional_move with
  | some (f, t) =>
      match b.squares.getD t.pos none with
      | some secondary =>
          some { b with squares := (b.squares.set t.pos none).set f.pos (some secondary) }
      | none => none
  | none => some b

/-- The "add back any captured piece" block of `Board::undo_turn`
(`board/turns.rs` lines 78-81); `Vec::pop` yields `None` on an empty stack,
so the square receives `captures.head?` and the stack becomes its tail. -/
def undoTurnCapture (b : Board) (turn : Turn) : Board :=
  match turn.capture with
  | some capture =>
      { b with
        squares := b.squares.set capture.pos b.captures.head?,
        captures := b.captures.tail }
  | none => b

/-- The promotion reversal and move-count decrement of `Board::undo_turn`
(`board/turns.rs` lines 83-89). -/
def undoTurnPiece (piece : Piece) (turn : Turn) : Piece :=
  let piece :=
    match turn.promote_from with
    | some promo_from => { piece with kind := promo_from }
    | none => piece
  { piece with move_count := piece.move_count - 1 }

/-- The en-passant-target recomputation of `Board::undo_turn`
(`board/turns.rs` lines 95-109): recompute the target from the turn now on
top of the history. -/
def undoTurnEnPassant (b : Board) : Board :=
  { b with
    en_passant_target :=
      match b.moves.head? with
      | some prev =>
          if prev.kind = PieceType.Pawn ∧ (prev.to'.row - prev.from'.row).natAbs = 2 then
            some (Position.new ((prev.to'.row + prev.from'.row) / 2) prev.from'.col)
          else none
      | none => none }

/-- The half-move-clock block of `Board::undo_turn` (`board/turns.rs` lines
111-115): pop the frame when it is 0, else decrement it; `none` models the
`unwrap` on an empty stack. -/
def undoTurnClock (b : Board) : Option Board :=
  match b.half_move_clock with
  | [] => none
  | c :: rest =>
      some (if c = 0 then { b with half_move_clock := rest }
            else { b with half_move_clock := (c - 1) :: rest })

/-- `Board::undo_turn` (`board/turns.rs` lines 66-121 = `board/mod.rs` lines
261-316), assembled from its blocks in source order.  Result
`some (none, b)` is the "nothing to undo" signal; `none` models the
panics. -/
def Board.undo_turn (b : Board) : Option (Option Turn × Board) :=
  match b.moves with
  | [] => some (none, b)
  | turn :: restMoves => do
      let b := { b with moves := restMoves }
      -- Lift piece from the expected place
      let piece ← b.squares.getD turn.to'.pos none
      let b := { b with squares := b.squares.set turn.to'.pos none }
      -- Lift and place the second piece
      let b ← undoTurnAdditional b turn
      -- Add back any captured piece
      let b := undoTurnCapture b turn
      -- Reverse any promotion and decrement the move count
      let piece := undoTurnPiece piece turn
      -- Place the main piece and change whose turn it is
      let b := { b with
        squares := b.squares.set turn.from'.pos (some piece),
        whose_turn := b.whose_turn.opp }
      -- Check the move before this to handle the en passant target
      let b := undoTurnEnPassant b
      let b ← undoTurnClock b
      let b := if b.whose_turn = .Black then { b with num_moves := b.num_moves - 1 } else b
      pure (some turn, b)

/-- `Board::is_move_legal` (`board/moves.rs` lines 72-80): make the turn,
query whether the mover's king is attacked, undo, and report both the verdict
and the board as left behind by the probe. -/
def Board.is_move_legal (b : Board) (turn : Turn) : Option (Bool × Board) := do
  let b ← b.make_turn turn
  let attacked ← b.is_king_attacked b.whose_turn.opp
  let (_, b) ← b.undo_turn
  pure (!attacked, b)

/-- `Board::add_move_if_legal` (`board/moves.rs` lines 141-145); `Vec::push`
appends at the end of the list. -/
def Board.add_move_if_legal (b : Board) (turn : Turn) (moves : List Turn) :
    Option (List Turn × Board) := do
  let (valid, b) ← b.is_move_legal turn
  pure (if valid then moves ++ [turn] else moves, b)

/-- `Board::get_turn_simple` (`board/moves.rs` lines 128-139); the outer
`Option` is the `unwrap` on the `from` square. -/
def Board.get_turn_simple (b : Board) (f t : Position) : Option (Option Turn) := do
  let this_piece ← b.at_position f
  pure (match b.at_position t with
    | some other_piece =>
        if other_piece.color ≠ this_piece.color then
          some (Turn.new_capture this_piece.kind f t)
        else none
    | none => some (Turn.new_basic this_piece.kind f t))

/-- The `while let Some(off_pos) = new_pos.offset(..)` walk of
`Board::line_moves` (`board/moves.rs` lines 148-169), with fuel 8 (a line
leaves the board within 8 steps). -/
def Board.lineWalk (pos : Position) (dir : Int × Int) :
    Nat → Board → Position → List Turn → Option (List Turn × Board)
  | 0, b, _, moves => some (moves, b)
  | fuel + 1, b, cur, moves =>
      match cur.offset dir.1 dir.2 with
      | none => some (moves, b)
      | some new_pos => do
          let ot ← b.get_turn_simple pos new_pos
          match ot with
          | none => pure (moves, b)
          | some turn => do
              let was_capture := turn.capture.isSome
              let (moves, b) ← b.add_move_if_legal turn moves
              if was_capture then pure (moves, b)
              else Board.lineWalk pos dir fuel b new_pos moves

/-- `Board::line_moves` (`board/moves.rs` lines 148-169). -/
def Board.line_moves (b : Board) (pos : Position) (directions : List (Int × Int)) :
    Option (List Turn × Board) :=
  directions.foldlM (fun acc dir => Board.lineWalk pos dir 8 acc.2 pos acc.1) ([], b)

/-- `Board::rook_moves` (`board/moves.rs`). -/
def Board.rook_moves (b : Board) (pos : Position) : Option (List Turn × Board) :=
  b.line_moves pos [(1, 0), (0, 1), (-1, 0), (0, -1)]

/-- `Board::bishop_moves` (`board/moves.rs`). -/
def Board.bishop_moves (b : Board) (pos : Position) : Option (List Turn × Board) :=
  b.line_moves pos [(1, 1), (1, -1), (-1, -1), (-1, 1)]

/-- `Board::queen_moves` (`board/moves.rs`). -/
def Board.queen_moves (b : Board) (pos : Position) : Option (List Turn × Board) :=
  b.line_moves pos [(1, 0), (0, 1), (-1, 0), (0, -1), (1, 1), (1, -1), (-1, -1), (-1, 1)]

/-- `Board::castling_single_move` (`board/moves.rs` lines 233-279).  The
returned `Bool` is the "keep scanning this line" flag; the attacked-squares
loop iterates `c` over `start..stop` and builds `Position::new(row, c)`
with `row` the row component of the scan direction (which is `0`). -/
def Board.castling_single_move (b : Board) (new_pos from_pos : Position)
    (col res_col row : Int) (moves : List Turn) : Option (Bool × List Turn × Board) :=
  match b.at_position new_pos with
  | none => some (true, moves, b)
  | some other_piece => do
      let this_piece ← b.at_position from_pos
      if ¬ (other_piece.kind = .Rook ∧ other_piece.color = this_piece.color ∧
            other_piece.move_count = 0) then
        pure (false, moves, b)
      else
        let f := from_pos.col + col
        let t := res_col - col
        let start := min f t
        let stop := max f t
        if ((List.range (stop - start).toNat).map (fun i => start + (i : Int))).any
            (fun c => b.are_pieces_attacking (Position.new row c) this_piece.color.opp) then
          pure (false, moves, b)
        else do
          let (moves, b) ← b.add_move_if_legal
            (Turn.new_additional this_piece.kind
              (from_pos, Position.new from_pos.row res_col)
              (new_pos, Position.new from_pos.row (res_col - col)))
            moves
          pure (true, moves, b)

/-- The `while let Some(pos) = new_pos.offset(row, col)` walk of
`Board::castling_moves` (`board/moves.rs` lines 217-229), with fuel 8. -/
def Board.castleWalk (from_pos : Position) (row col res_col : Int) :
    Nat → Board → Position → List Turn → Option (List Turn × Board)
  | 0, b, _, moves => some (moves, b)
  | fuel + 1, b, cur, moves =>
      match cur.offset row col with
      | none => some (moves, b)
      | some new_pos => do
          let (cont, moves, b) ← b.castling_single_move new_pos from_pos col res_col row moves
          if cont then Board.castleWalk from_pos row col res_col fuel b new_pos moves
          else pure (moves, b)

/-- `Board::castling_moves` (`board/moves.rs` lines 217-229). -/
def Board.castling_moves (b : Board) (from_pos : Position) (moves : List Turn) :
    Option (List Turn × Board) :=
  [((0 : Int), (1 : Int), (6 : Int)), (0, -1, 2)].foldlM
    (fun acc rcr => Board.castleWalk from_pos rcr.1 rcr.2.1 rcr.2.2 8 acc.2 from_pos acc.1)
    (moves, b)

/-- `Board::king_moves` (`board/moves.rs` lines 195-215). -/
def Board.king_moves (b : Board) (from_pos : Position) : Option (List Turn × Board) := do
  let (moves, b) ← RAY_DIRS.foldlM (fun (acc : List Turn × Board) rc =>
    match from_pos.offset rc.1 rc.2 with
    | some to_pos => do
        let ot ← acc.2.get_turn_simple from_pos to_pos
        match ot with
        | some turn => acc.2.add_move_if_legal turn acc.1
        | none => pure acc
    | none => pure acc) ([], b)
  -- Castling: can't have moved, and must be on the first rank
  let piece ← b.at_position from_pos
  if piece.move_count = 0 ∧ from_pos.row = piece.color.get_home then
    b.castling_moves from_pos moves
  else pure (moves, b)

/-- `Board::knight_moves` (`board/moves.rs` lines 281-293): iterates the
(orthogonal, duplicated) `KNIGHT_MOVES` offsets. -/
def Board.knight_moves (b : Board) (pos : Position) : Option (List Turn × Board) :=
  KNIGHT_MOVES.foldlM (fun (acc : List Turn × Board) rc =>
    match pos.offset rc.1 rc.2 with
    | some to_pos => do
        let ot ← acc.2.get_turn_simple pos to_pos
        match ot with
        | some turn => acc.2.add_move_if_legal turn acc.1
        | none => pure acc
    | none => pure acc) ([], b)

/-- `Board::pawn_advance` (`board/moves.rs` lines 311-337).  The piece is
cloned up front; the two-square block is nested inside the first
`is_none` check, and re-reads occupancy from the board as left by the
preceding probes. -/
def Board.pawn_advance (b : Board) (pos : Position) (moves : List Turn) :
    Option (List Turn × Board) := do
  let piece ← b.at_position pos
  match pos.offset piece.color.get_direction 0 with
  | none => pure (moves, b)
  | some pos_offset =>
      if (b.at_position pos_offset).isNone then do
        let (moves, b) ←
          if pos_offset.row = piece.color.opp.get_home then
            PROMOTABLE_TYPES.foldlM (fun (acc : List Turn × Board) promo =>
              acc.2.add_move_if_legal
                (Turn.new_promotion piece.kind pos pos_offset promo false) acc.1)
              (moves, b)
          else
            b.add_move_if_legal (Turn.new_basic piece.kind pos pos_offset) moves
        -- First move can be two spaces
        if pos.row = piece.color.get_home + piece.color.get_direction then
          match pos_offset.offset piece.color.get_direction 0 with
          | none => none
          | some pos_offset2 =>
              if (b.at_position pos_offset2).isNone then
                b.add_move_if_legal (Turn.new_basic piece.kind pos pos_offset2) moves
              else pure (moves, b)
        else pure (moves, b)
      else pure (moves, b)

/-- `Board::pawn_capture` (`board/moves.rs` lines 339-362), exactly as
written: in the promotion branch the constructed turns carry `other_kind`,
the kind of the piece standing on the capture square. -/
def Board.pawn_capture (b : Board) (pos : Position) (c_off : Int) (moves : List Turn) :
    Option (List Turn × Board) := do
  let this_piece ← b.at_position pos
  match pos.offset this_piece.color.get_direction c_off with
  | none => pure (moves, b)
  | some pos_offset =>
      match b.at_position pos_offset with
      | none => pure (moves, b)
      | some other_piece =>
          let other_kind := other_piece.kind
          if this_piece.color = other_piece.color.opp then
            if pos_offset.row = other_piece.color.get_home then
              PROMOTABLE_TYPES.foldlM (fun (acc : List Turn × Board) promo =>
                acc.2.add_move_if_legal
                  (Turn.new_promotion other_kind pos pos_offset promo true) acc.1)
                (moves, b)
            else
              b.add_move_if_legal (Turn.new_capture this_piece.kind pos pos_offset) moves
          else pure (moves, b)

/-- `Board::pawn_en_passant` (`board/moves.rs` lines 364-384). -/
def Board.pawn_en_passant (b : Board) (pos : Position) (moves : List Turn) :
    Option (List Turn × Board) := do
  let this_piece ← b.at_position pos
  match b.en_passant_target with
  | none => pure (moves, b)
  | some target =>
      if pos.row + this_piece.color.get_direction = target.row ∧
          (pos.col - target.col).natAbs = 1 then
        b.add_move_if_legal
          (Turn.new_capture_complex this_piece.kind pos target
            (Position.new pos.row target.col))
          moves
      else pure (moves, b)

/-- `Board::pawn_moves` (`board/moves.rs` lines 295-309); the trailing
`if pos.row() == ... * 6 {}` of the source has an empty body and is omitted.
The read of the piece at `pos` models the leading `unwrap`. -/
def Board.pawn_moves (b : Board) (pos : Position) : Option (List Turn × Board) := do
  let _ ← b.at_position pos
  let (moves, b) ← b.pawn_advance pos []
  let (moves, b) ← b.pawn_capture pos (-1) moves
  let (moves, b) ← b.pawn_capture pos 1 moves
  b.pawn_en_passant pos moves

/-- `Board::get_piece_moves` (`board/moves.rs` lines 109-119). -/
def Board.get_piece_moves (b : Board) (pos : Position) : Option (List Turn × Board) := do
  let piece ← b.at_position pos
  match piece.kind with
  | .King => b.king_moves pos
  | .Queen => b.queen_moves pos
  | .Rook => b.rook_moves pos
  | .Bishop => b.bishop_moves pos
  | .Knight => b.knight_moves pos
  | .Pawn => b.pawn_moves pos

/-- `Board::do_get_moves` (`board/moves.rs` lines 92-103). -/
def Board.do_get_moves (b : Board) : Option (List Turn × Board) :=
  (List.range 64).foldlM (fun (acc : List Turn × Board) i =>
    let pos : Position := ⟨(i : Int)⟩
    match acc.2.at_position pos with
    | some piece =>
        if piece.color = acc.2.whose_turn then do
          let (ms, b) ← acc.2.get_piece_moves pos
          pure (acc.1 ++ ms, b)
        else pure acc
    | none => pure acc) ([], b)

/-- `Board::get_moves` (`board/moves.rs` lines 83-90). -/
def Board.get_moves (b : Board) : Option (List Turn × Board) := do
  let fifty ← b.is_50_move_rule
  if b.is_threefold_repetition || fifty then pure ([], b)
  else b.do_get_moves

/-- The perft driver described by the specification: enumerate `get_moves`,
apply each turn with `make_turn`, recurse, and undo with `undo_turn`
(expecting a turn back, as `main.rs` does). -/
def Board.perft : Nat → Board → Option (Nat × Board)
  | 0, b => some (1, b)
  | depth + 1, b => do
      let (ms, b) ← b.get_moves
      ms.foldlM (fun (acc : Nat × Board) turn => do
        let b ← acc.2.make_turn turn
        let (n, b) ← Board.perft depth b
        let (ot, b) ← b.undo_turn
        match ot with
        | some _ => pure (acc.1 + n, b)
        | none => none) (0, b)

/-- Play a scripted game: at each step the scripted turn must be a member of
the generated move list, and is then executed with `make_turn` on the board
as the generator left it (the driver protocol of the specification). -/
def Board.playGame : Board → List Turn → Option Board
  | b, [] => some b
  | b, t :: ts => do
      let (ms, b) ← b.get_moves
      if t ∈ ms then do
        let b ← b.make_turn t
        Board.playGame b ts
      else none

/-- Board states reachable from the starting position by legal play: at each
step a turn from the generated move list is executed on the board as the
generator left it. -/
inductive Reachable : Board → Prop
  | start : Reachable Board.from_start
  | step {b b' b'' : Board} {ms : List Turn} {t : Turn} :
      Reachable b → b.get_moves = some (ms, b') → t ∈ ms →
      b'.make_turn t = some b'' → Reachable b''


/-- The move list returned by `get_moves` (first component), or `[]` when the
generator aborts. -/
def Board.genList (b : Board) : List Turn :=
  ((b.get_moves).map Prod.fst).getD []

/-- `make_turn` followed by `undo_turn`: the round trip of the
specification's round-trip law. -/
def Board.roundTrip (b : Board) (t : Turn) : Option Board := do
  let b ← b.make_turn t
  let (_, b) ← b.undo_turn
  pure b

/-- Apply a list of turns with `make_turn`, in order. -/
def makeTurns (b : Board) (ts : List Turn) : Option Board :=
  ts.foldlM Board.make_turn b

/-- The capture-stack invariant of the specification: the number of captured
pieces equals the number of executed turns whose `capture` field is set. -/
def CapInv (b : Board) : Prop :=
  b.captures.length = (b.moves.filter fun t => t.capture.isSome).length

/-- Board states reachable from the starting position by `make_turn` calls
and matching `undo_turn` calls, together with the current ply count. -/
inductive AnyReach : Board → Nat → Prop
  | start : AnyReach Board.from_start 0
  | make {b : Board} {t : Turn} {b' : Board} {n : Nat} :
      AnyReach b n → b.make_turn t = some b' → AnyReach b' (n + 1)
  | undo {b : Board} {t : Turn} {b' : Board} {n : Nat} :
      AnyReach b (n + 1) → b.undo_turn = some (some t, b') → AnyReach b' n

/-- The 8-ply scripted game 1. a4 b5 2. axb5 h6 3. b6 h5 4. bxa7 h4,
leading to a position where the white pawn on a7 can capture the black
knight on b8 with promotion. -/
def c1Script : List Turn :=
  [⟨.Pawn, ⟨8⟩, ⟨24⟩, none, none, none, none⟩,
   ⟨.Pawn, ⟨49⟩, ⟨33⟩, none, none, none, none⟩,
   ⟨.Pawn, ⟨24⟩, ⟨33⟩, some ⟨33⟩, none, none, none⟩,
   ⟨.Pawn, ⟨55⟩, ⟨47⟩, none, none, none, none⟩,
   ⟨.Pawn, ⟨33⟩, ⟨41⟩, none, none, none, none⟩,
   ⟨.Pawn, ⟨47⟩, ⟨39⟩, none, none, none, none⟩,
   ⟨.Pawn, ⟨41⟩, ⟨48⟩, some ⟨48⟩, none, none, none⟩,
   ⟨.Pawn, ⟨39⟩, ⟨31⟩, none, none, none, none⟩]

/-- The board reached by `c1Script` (white pawn on a7, black knight on b8,
white to move). -/
def B8 : Board :=
  ⟨[⟨.Pawn, .Black, 0⟩, ⟨.Pawn, .Black, 1⟩],
   [some ⟨.Rook, .White, 0⟩,
    some ⟨.Knight, .White, 0⟩,
    some ⟨.Bishop, .White, 0⟩,
    some ⟨.Queen, .White, 0⟩,
    some ⟨.King, .White, 0⟩,
    some ⟨.Bishop, .White, 0⟩,
    some ⟨.Knight, .White, 0⟩,
    some ⟨.Rook, .White, 0⟩,
    none,
    some ⟨.Pawn, .White, 0⟩,
    some ⟨.Pawn, .White, 0⟩,
    some ⟨.Pawn, .White, 0⟩,
    some ⟨.Pawn, .White, 0⟩,
    some ⟨.Pawn, .White, 0⟩,
    some ⟨.Pawn, .White, 0⟩,
    some ⟨.Pawn, .White, 0⟩,
    none,
    none,
    none,
    none,
    none,
    none,
    none,
    none,
    none,
    none,
    none,
    none,
    none,
    none,
    none,
    some ⟨.Pawn, .Black, 3⟩,
    none,
    none,
    none,
    none,
    none,
    none,
    none,
    none,
    none,
    none,
    none,
    none,
    none,
    none,
    none,
    none,
    some ⟨.Pawn, .White, 4⟩,
    none,
    some ⟨.Pawn, .Black, 0⟩,
    some ⟨.Pawn, .Black, 0⟩,
    some ⟨.Pawn, .Black, 0⟩,
    some ⟨.Pawn, .Black, 0⟩,
    some ⟨.Pawn, .Black, 0⟩,
    none,
    some ⟨.Rook, .Black, 0⟩,
    some ⟨.Knight, .Black, 0⟩,
    some ⟨.Bishop, .Black, 0⟩,
    some ⟨.Queen, .Black, 0⟩,
    some ⟨.King, .Black, 0⟩,
    some ⟨.Bishop, .Black, 0⟩,
    some ⟨.Knight, .Black, 0⟩,
    some ⟨.Rook, .Black, 0⟩],
   .White,
   [⟨.Pawn, ⟨39⟩, ⟨31⟩, none, none, none, none⟩,
    ⟨.Pawn, ⟨41⟩, ⟨48⟩, some ⟨48⟩, none, none, none⟩,
    ⟨.Pawn, ⟨47⟩, ⟨39⟩, none, none, none, none⟩,
    ⟨.Pawn, ⟨33⟩, ⟨41⟩, none, none, none, none⟩,
    ⟨.Pawn, ⟨55⟩, ⟨47⟩, none, none, none, none⟩,
    ⟨.Pawn, ⟨24⟩, ⟨33⟩, some ⟨33⟩, none, none, none⟩,
    ⟨.Pawn, ⟨49⟩, ⟨33⟩, none, none, none, none⟩,
    ⟨.Pawn, ⟨8⟩, ⟨24⟩, none, none, none, none⟩],
   [0, 0, 0, 0, 0, 0, 0, 0, 0], 5, none⟩

/-- The 30-ply scripted game leading to the board `C2B`. -/
def c2Script : List Turn :=
  [⟨.Pawn, ⟨8⟩, ⟨24⟩, none, none, none, none⟩,
   ⟨.Pawn, ⟨49⟩, ⟨33⟩, none, none, none, none⟩,
   ⟨.Pawn, ⟨24⟩, ⟨33⟩, some ⟨33⟩, none, none, none⟩,
   ⟨.Pawn, ⟨51⟩, ⟨35⟩, none, none, none, none⟩,
   ⟨.Rook, ⟨0⟩, ⟨40⟩, none, none, none, none⟩,
   ⟨.Queen, ⟨59⟩, ⟨43⟩, none, none, none, none⟩,
   ⟨.Rook, ⟨40⟩, ⟨41⟩, none, none, none, none⟩,
   ⟨.Queen, ⟨43⟩, ⟨15⟩, some ⟨15⟩, none, none, none⟩,
   ⟨.Rook, ⟨7⟩, ⟨15⟩, some ⟨15⟩, none, none, none⟩,
   ⟨.Knight, ⟨57⟩, ⟨49⟩, none, none, none, none⟩,
   ⟨.Rook, ⟨41⟩, ⟨49⟩, some ⟨49⟩, none, none, none⟩,
   ⟨.Bishop, ⟨58⟩, ⟨23⟩, none, none, none, none⟩,
   ⟨.Pawn, ⟨11⟩, ⟨27⟩, none, none, none, none⟩,
   ⟨.King, ⟨60⟩, ⟨59⟩, none, none, none, none⟩,
   ⟨.King, ⟨4⟩, ⟨11⟩, none, none, none, none⟩,
   ⟨.King, ⟨59⟩, ⟨58⟩, none, none, none, none⟩,
   ⟨.King, ⟨11⟩, ⟨18⟩, none, none, none, none⟩,
   ⟨.King, ⟨58⟩, ⟨57⟩, none, none, none, none⟩,
   ⟨.King, ⟨18⟩, ⟨25⟩, none, none, none, none⟩,
   ⟨.Pawn, ⟨55⟩, ⟨39⟩, none, none, none, none⟩,
   ⟨.King, ⟨25⟩, ⟨34⟩, none, none, none, none⟩,
   ⟨.Pawn, ⟨53⟩, ⟨37⟩, none, none, none, none⟩,
   ⟨.King, ⟨34⟩, ⟨43⟩, none, none, none, none⟩,
   ⟨.Pawn, ⟨54⟩, ⟨38⟩, none, none, none, none⟩,
   ⟨.King, ⟨43⟩, ⟨51⟩, none, none, none, none⟩,
   ⟨.Pawn, ⟨38⟩, ⟨30⟩, none, none, none, none⟩,
   ⟨.Pawn, ⟨33⟩, ⟨41⟩, none, none, none, none⟩,
   ⟨.Pawn, ⟨52⟩, ⟨36⟩, none, none, none, none⟩,
   ⟨.Pawn, ⟨41⟩, ⟨48⟩, some ⟨48⟩, none, none, none⟩,
   ⟨.Rook, ⟨63⟩, ⟨55⟩, none, none, none, none⟩]

/-- The board reached by `c2Script`: white king on d7 in check from the
black rook on h7, white pawn on a7, white rook on b7, black king on b8,
white to move. -/
def C2B : Board :=
  ⟨[⟨.Pawn, .Black, 0⟩, ⟨.Knight, .Black, 1⟩, ⟨.Queen, .Black, 2⟩, ⟨.Pawn, .White, 0⟩, ⟨.Pawn, .Black, 1⟩],
   [none,
    some ⟨.Knight, .White, 0⟩,
    some ⟨.Bishop, .White, 0⟩,
    some ⟨.Queen, .White, 0⟩,
    none,
    some ⟨.Bishop, .White, 0⟩,
    some ⟨.Knight, .White, 0⟩,
    none,
    none,
    some ⟨.Pawn, .White, 0⟩,
    some ⟨.Pawn, .White, 0⟩,
    none,
    some ⟨.Pawn, .White, 0⟩,
    some ⟨.Pawn, .White, 0⟩,
    some ⟨.Pawn, .White, 0⟩,
    some ⟨.Rook, .White, 1⟩,
    none,
    none,
    none,
    none,
    none,
    none,
    none,
    some ⟨.Bishop, .Black, 1⟩,
    none,
    none,
    none,
    some ⟨.Pawn, .White, 1⟩,
    none,
    none,
    some ⟨.Pawn, .Black, 2⟩,
    none,
    none,
    none,
    none,
    some ⟨.Pawn, .Black, 1⟩,
    some ⟨.Pawn, .Black, 1⟩,
    some ⟨.Pawn, .Black, 1⟩,
    none,
    some ⟨.Pawn, .Black, 1⟩,
    none,
    none,
    none,
    none,
    none,
    none,
    none,
    none,
    some ⟨.Pawn, .White, 4⟩,
    some ⟨.Rook, .White, 3⟩,
    some ⟨.Pawn, .Black, 0⟩,
    some ⟨.King, .White, 6⟩,
    none,
    none,
    none,
    some ⟨.Rook, .Black, 1⟩,
    some ⟨.Rook, .Black, 0⟩,
    some ⟨.King, .Black, 3⟩,
    none,
    none,
    none,
    some ⟨.Bishop, .Black, 0⟩,
    some ⟨.Knight, .Black, 0⟩,
    none],
   .White,
   [⟨.Rook, ⟨63⟩, ⟨55⟩, none, none, none, none⟩,
    ⟨.Pawn, ⟨41⟩, ⟨48⟩, some ⟨48⟩, none, none, none⟩,
    ⟨.Pawn, ⟨52⟩, ⟨36⟩, none, none, none, none⟩,
    ⟨.Pawn, ⟨33⟩, ⟨41⟩, none, none, none, none⟩,
    ⟨.Pawn, ⟨38⟩, ⟨30⟩, none, none, none, none⟩,
    ⟨.King, ⟨43⟩, ⟨51⟩, none, none, none, none⟩,
    ⟨.Pawn, ⟨54⟩, ⟨38⟩, none, none, none, none⟩,
    ⟨.King, ⟨34⟩, ⟨43⟩, none, none, none, none⟩,
    ⟨.Pawn, ⟨53⟩, ⟨37⟩, none, none, none, none⟩,
    ⟨.King, ⟨25⟩, ⟨34⟩, none, none, none, none⟩,
    ⟨.Pawn, ⟨55⟩, ⟨39⟩, none, none, none, none⟩,
    ⟨.King, ⟨18⟩, ⟨25⟩, none, none, none, none⟩,
    ⟨.King, ⟨58⟩, ⟨57⟩, none, none, none, none⟩,
    ⟨.King, ⟨11⟩, ⟨18⟩, none, none, none, none⟩,
    ⟨.King, ⟨59⟩, ⟨58⟩, none, none, none, none⟩,
    ⟨.King, ⟨4⟩, ⟨11⟩, none, none, none, none⟩,
    ⟨.King, ⟨60⟩, ⟨59⟩, none, none, none, none⟩,
    ⟨.Pawn, ⟨11⟩, ⟨27⟩, none, none, none, none⟩,
    ⟨.Bishop, ⟨58⟩, ⟨23⟩, none, none, none, none⟩,
    ⟨.Rook, ⟨41⟩, ⟨49⟩, some ⟨49⟩, none, none, none⟩,
    ⟨.Knight, ⟨57⟩, ⟨49⟩, none, none, none, none⟩,
    ⟨.Rook, ⟨7⟩, ⟨15⟩, some ⟨15⟩, none, none, none⟩,
    ⟨.Queen, ⟨43⟩, ⟨15⟩, some ⟨15⟩, none, none, none⟩,
    ⟨.Rook, ⟨40⟩, ⟨41⟩, none, none, none, none⟩,
    ⟨.Queen, ⟨59⟩, ⟨43⟩, none, none, none, none⟩,
    ⟨.Rook, ⟨0⟩, ⟨40⟩, none, none, none, none⟩,
    ⟨.Pawn, ⟨51⟩, ⟨35⟩, none, none, none, none⟩,
    ⟨.Pawn, ⟨24⟩, ⟨33⟩, some ⟨33⟩, none, none, none⟩,
    ⟨.Pawn, ⟨49⟩, ⟨33⟩, none, none, none, none⟩,
    ⟨.Pawn, ⟨8⟩, ⟨24⟩, none, none, none, none⟩],
   [1, 0, 0, 0, 1, 1, 1, 6, 1, 1, 0, 3, 0, 0, 0, 0], 16, none⟩

/-- The board reached after the first 10 plies of `c2Script`. -/
def C2Seg1End : Board :=
  ⟨[⟨.Queen, .Black, 2⟩, ⟨.Pawn, .White, 0⟩, ⟨.Pawn, .Black, 1⟩],
   [none,
    some ⟨.Knight, .White, 0⟩,
    some ⟨.Bishop, .White, 0⟩,
    some ⟨.Queen, .White, 0⟩,
    some ⟨.King, .White, 0⟩,
    some ⟨.Bishop, .White, 0⟩,
    some ⟨.Knight, .White, 0⟩,
    none,
    none,
    some ⟨.Pawn, .White, 0⟩,
    some ⟨.Pawn, .White, 0⟩,
    some ⟨.Pawn, .White, 0⟩,
    some ⟨.Pawn, .White, 0⟩,
    some ⟨.Pawn, .White, 0⟩,
    some ⟨.Pawn, .White, 0⟩,
    some ⟨.Rook, .White, 1⟩,
    none,
    none,
    none,
    none,
    none,
    none,
    none,
    none,
    none,
    none,
    none,
    none,
    none,
    none,
    none,
    none,
    none,
    some ⟨.Pawn, .White, 2⟩,
    none,
    some ⟨.Pawn, .Black, 1⟩,
    none,
    none,
    none,
    none,
    none,
    some ⟨.Rook, .White, 2⟩,
    none,
    none,
    none,
    none,
    none,
    none,
    some ⟨.Pawn, .Black, 0⟩,
    some ⟨.Knight, .Black, 1⟩,
    some ⟨.Pawn, .Black, 0⟩,
    none,
    some ⟨.Pawn, .Black, 0⟩,
    some ⟨.Pawn, .Black, 0⟩,
    some ⟨.Pawn, .Black, 0⟩,
    some ⟨.Pawn, .Black, 0⟩,
    some ⟨.Rook, .Black, 0⟩,
    none,
    some ⟨.Bishop, .Black, 0⟩,
    none,
    some ⟨.King, .Black, 0⟩,
    some ⟨.Bishop, .Black, 0⟩,
    some ⟨.Knight, .Black, 0⟩,
    some ⟨.Rook, .Black, 0⟩],
   .White,
   [⟨.Knight, ⟨57⟩, ⟨49⟩, none, none, none, none⟩,
    ⟨.Rook, ⟨7⟩, ⟨15⟩, some ⟨15⟩, none, none, none⟩,
    ⟨.Queen, ⟨43⟩, ⟨15⟩, some ⟨15⟩, none, none, none⟩,
    ⟨.Rook, ⟨40⟩, ⟨41⟩, none, none, none, none⟩,
    ⟨.Queen, ⟨59⟩, ⟨43⟩, none, none, none, none⟩,
    ⟨.Rook, ⟨0⟩, ⟨40⟩, none, none, none, none⟩,
    ⟨.Pawn, ⟨51⟩, ⟨35⟩, none, none, none, none⟩,
    ⟨.Pawn, ⟨24⟩, ⟨33⟩, some ⟨33⟩, none, none, none⟩,
    ⟨.Pawn, ⟨49⟩, ⟨33⟩, none, none, none, none⟩,
    ⟨.Pawn, ⟨8⟩, ⟨24⟩, none, none, none, none⟩],
   [1, 0, 3, 0, 0, 0, 0], 6, none⟩

/-- The board reached after the first 20 plies of `c2Script`. -/
def C2Seg2End : Board :=
  ⟨[⟨.Knight, .Black, 1⟩, ⟨.Queen, .Black, 2⟩, ⟨.Pawn, .White, 0⟩, ⟨.Pawn, .Black, 1⟩],
   [none,
    some ⟨.Knight, .White, 0⟩,
    some ⟨.Bishop, .White, 0⟩,
    some ⟨.Queen, .White, 0⟩,
    none,
    some ⟨.Bishop, .White, 0⟩,
    some ⟨.Knight, .White, 0⟩,
    none,
    none,
    some ⟨.Pawn, .White, 0⟩,
    some ⟨.Pawn, .White, 0⟩,
    none,
    some ⟨.Pawn, .White, 0⟩,
    some ⟨.Pawn, .White, 0⟩,
    some ⟨.Pawn, .White, 0⟩,
    some ⟨.Rook, .White, 1⟩,
    none,
    none,
    none,
    none,
    none,
    none,
    none,
    some ⟨.Bishop, .Black, 1⟩,
    none,
    some ⟨.King, .White, 3⟩,
    none,
    some ⟨.Pawn, .White, 1⟩,
    none,
    none,
    none,
    none,
    none,
    some ⟨.Pawn, .White, 2⟩,
    none,
    some ⟨.Pawn, .Black, 1⟩,
    none,
    none,
    none,
    some ⟨.Pawn, .Black, 1⟩,
    none,
    none,
    none,
    none,
    none,
    none,
    none,
    none,
    some ⟨.Pawn, .Black, 0⟩,
    some ⟨.Rook, .White, 3⟩,
    some ⟨.Pawn, .Black, 0⟩,
    none,
    some ⟨.Pawn, .Black, 0⟩,
    some ⟨.Pawn, .Black, 0⟩,
    some ⟨.Pawn, .Black, 0⟩,
    none,
    some ⟨.Rook, .Black, 0⟩,
    some ⟨.King, .Black, 3⟩,
    none,
    none,
    none,
    some ⟨.Bishop, .Black, 0⟩,
    some ⟨.Knight, .Black, 0⟩,
    some ⟨.Rook, .Black, 0⟩],
   .White,
   [⟨.Pawn, ⟨55⟩, ⟨39⟩, none, none, none, none⟩,
    ⟨.King, ⟨18⟩, ⟨25⟩, none, none, none, none⟩,
    ⟨.King, ⟨58⟩, ⟨57⟩, none, none, none, none⟩,
    ⟨.King, ⟨11⟩, ⟨18⟩, none, none, none, none⟩,
    ⟨.King, ⟨59⟩, ⟨58⟩, none, none, none, none⟩,
    ⟨.King, ⟨4⟩, ⟨11⟩, none, none, none, none⟩,
    ⟨.King, ⟨60⟩, ⟨59⟩, none, none, none, none⟩,
    ⟨.Pawn, ⟨11⟩, ⟨27⟩, none, none, none, none⟩,
    ⟨.Bishop, ⟨58⟩, ⟨23⟩, none, none, none, none⟩,
    ⟨.Rook, ⟨41⟩, ⟨49⟩, some ⟨49⟩, none, none, none⟩,
    ⟨.Knight, ⟨57⟩, ⟨49⟩, none, none, none, none⟩,
    ⟨.Rook, ⟨7⟩, ⟨15⟩, some ⟨15⟩, none, none, none⟩,
    ⟨.Queen, ⟨43⟩, ⟨15⟩, some ⟨15⟩, none, none, none⟩,
    ⟨.Rook, ⟨40⟩, ⟨41⟩, none, none, none, none⟩,
    ⟨.Queen, ⟨59⟩, ⟨43⟩, none, none, none, none⟩,
    ⟨.Rook, ⟨0⟩, ⟨40⟩, none, none, none, none⟩,
    ⟨.Pawn, ⟨51⟩, ⟨35⟩, none, none, none, none⟩,
    ⟨.Pawn, ⟨24⟩, ⟨33⟩, some ⟨33⟩, none, none, none⟩,
    ⟨.Pawn, ⟨49⟩, ⟨33⟩, none, none, none, none⟩,
    ⟨.Pawn, ⟨8⟩, ⟨24⟩, none, none, none, none⟩],
   [0, 6, 1, 1, 0, 3, 0, 0, 0, 0], 11, some ⟨47⟩⟩


/-- The first ten plies of `c2Script`. -/
def c2Seg1 : List Turn := c2Script.take 10

/-- Plies 11-20 of `c2Script`. -/
def c2Seg2 : List Turn := (c2Script.drop 10).take 10

/-- Plies 21-30 of `c2Script`. -/
def c2Seg3 : List Turn := c2Script.drop 20

/-- The promotion-by-capture turn the generator produces at `B8` for the
white pawn on a7 capturing the black knight on b8 and promoting to a queen.
Its `kind` field is `Knight` (the kind of the captured piece), as built by
`pawn_capture`. -/
def promoQa7b8 : Turn :=
  ⟨.Knight, ⟨48⟩, ⟨57⟩, some ⟨57⟩, none, some .Queen, some .Knight⟩

/-- The turn the generator produces at `C2B`: the white rook on b7 captures
the black king on b8. -/
def rxb8 : Turn :=
  ⟨.Rook, ⟨49⟩, ⟨57⟩, some ⟨57⟩, none, none, none⟩

/-- A board with the white king on e1, a white bishop on d6, the black king
on e8 and the black rook on h8 (both unmoved), black to move.  The white
bishop attacks f8, the square the black king passes over when castling
king-side. -/
def c4Board : Board :=
  ⟨[],
   List.replicate 4 none ++ [some ⟨.King, .White, 0⟩] ++ List.replicate 38 none ++
     [some ⟨.Bishop, .White, 0⟩] ++ List.replicate 16 none ++
     [some ⟨.King, .Black, 0⟩] ++ List.replicate 2 none ++ [some ⟨.Rook, .Black, 0⟩],
   .Black, [], [0], 1, none⟩

/-- The black king-side castling turn at `c4Board`: king e8 to g8, rook h8
to f8. -/
def c4Castle : Turn :=
  ⟨.King, ⟨60⟩, ⟨62⟩, none, some (⟨63⟩, ⟨61⟩), none, none⟩

/-- The square f8. -/
def f8 : Position := ⟨61⟩

/-- A board holding only a white pawn on e4 and a black pawn on d3. -/
def c5Board : Board :=
  ⟨[],
   List.replicate 19 none ++ [some ⟨.Pawn, .Black, 0⟩] ++ List.replicate 8 none ++
     [some ⟨.Pawn, .White, 0⟩] ++ List.replicate 35 none,
   .White, [], [0], 1, none⟩

/-- The white pawn standing on e4 in `c5Board`. -/
def c5WhitePawn : Piece := ⟨.Pawn, .White, 0⟩

/-- A white rook piece value. -/
def c6Rook : Piece := ⟨.Rook, .White, 0⟩

/-- A board holding a single white rook on a1, used to drive the half-move
clock without captures or pawn moves. -/
def c8Board : Board :=
  ⟨[], some ⟨.Rook, .White, 0⟩ :: List.replicate 63 none, .White, [], [0], 1, none⟩

/-- 100 alternating rook moves a1-a2-a1-..., none of which is a capture or a
pawn move. -/
def c8Turns : List Turn :=
  (List.replicate 50 [Turn.new_basic .Rook ⟨0⟩ ⟨8⟩, Turn.new_basic .Rook ⟨8⟩ ⟨0⟩]).flatten

/-- The board after driving `c8Board` through `c8Turns`. -/
def c8End : Board :=
  (makeTurns c8Board c8Turns).getD c8Board

/-- A board with the white king on e1, a white pawn on a7, the black knight
on b8 and the black king on e8, white to move: the pawn can capture the
knight with promotion. -/
def c7Board : Board :=
  ⟨[], List.replicate 4 none ++ [some ⟨.King, .White, 0⟩] ++ List.replicate 43 none ++
     [some ⟨.Pawn, .White, 0⟩] ++ List.replicate 8 none ++
     [some ⟨.Knight, .Black, 0⟩] ++ List.replicate 2 none ++ [some ⟨.King, .Black, 0⟩] ++
     List.replicate 3 none,
   .White, [], [0], 1, none⟩

/-- The promotion-by-capture turn the generator produces at `c7Board` for the
white pawn on a7 capturing the black knight on b8 and promoting to a queen;
its `kind` field is `Knight`, the kind of the captured piece. -/
def c7Promo : Turn :=
  ⟨.Knight, ⟨48⟩, ⟨57⟩, some ⟨57⟩, none, some .Queen, some .Knight⟩


theorem bindEqSome {α β : Type} {x : Option α} {f : α → Option β} {r : β}
    (h : x >>= f = some r) : ∃ a, x = some a ∧ f a = some r := by
  cases x with
  | none => exact absurd h (by simp)
  | some a => exact ⟨a, rfl, h⟩

theorem makeTurnCapture_fields {b b1 : Board} {t : Turn} (h : makeTurnCapture b t = some b1) :
    b1.moves = b.moves ∧
    b1.captures.length = b.captures.length + (if t.capture.isSome then 1 else 0) := by
  unfold makeTurnCapture at h
  split at h
  · split at h
    · cases h; simp_all
    · exact absurd h (by simp)
  · cases h; simp_all

theorem makeTurnCapture_nocap {b : Board} {t : Turn} (hc : t.capture = none) :
    makeTurnCapture b t = some b := by
  unfold makeTurnCapture
  rw [hc]

theorem makeTurnPawnPush_fields (b : Board) (t : Turn) :
    (makeTurnPawnPush b t).moves = b.moves ∧
    (makeTurnPawnPush b t).captures = b.captures := by
  unfold makeTurnPawnPush
  split <;> simp

theorem makeTurnPawnPush_nonpawn {b : Board} {t : Turn} (hk : t.kind ≠ PieceType.Pawn) :
    makeTurnPawnPush b t = { b with en_passant_target := none } := by
  unfold makeTurnPawnPush
  rw [if_neg]
  intro hcontra
  exact hk hcontra.1

theorem makeTurnAdditional_fields {b b1 : Board} {t : Turn}
    (h : makeTurnAdditional b t = some b1) :
    b1.moves = b.moves ∧ b1.captures = b.captures ∧
    b1.half_move_clock = b.half_move_clock := by
  unfold makeTurnAdditional at h
  split at h
  · split at h
    · dsimp only at h
      split at h
      · cases h; simp
      · exact absurd h (by simp)
    · exact absurd h (by simp)
  · cases h; simp

theorem makeTurnFinish_fields {b b' : Board} {t : Turn} {p : Piece}
    (h : makeTurnFinish b t p = some b') :
    b'.moves = t :: b.moves ∧ b'.captures = b.captures ∧
    (∃ c rest, b.half_move_clock = c :: rest ∧ b'.half_move_clock = (c + 1) :: rest) := by
  unfold makeTurnFinish at h
  split at h
  · exact absurd h (by simp)
  · dsimp only at h
    split at h
    · exact absurd h (by simp)
    · rename_i c rest hck
      cases h
      refine ⟨?_, ?_, c, rest, hck, ?_⟩ <;> split <;> simp

theorem make_turn_stacks {b b' : Board} {t : Turn} (h : b.make_turn t = some b') :
    b'.moves = t :: b.moves ∧
    b'.captures.length = b.captures.length + (if t.capture.isSome then 1 else 0) := by
  unfold Board.make_turn at h
  obtain ⟨b1, h1, h⟩ := bindEqSome h
  obtain ⟨piece, hp, h⟩ := bindEqSome h
  obtain ⟨b4, h4, h⟩ := bindEqSome h
  obtain ⟨hc1, hc2⟩ := makeTurnCapture_fields h1
  obtain ⟨hp1, hp2⟩ := makeTurnPawnPush_fields b1 t
  obtain ⟨ha1, ha2, _⟩ := makeTurnAdditional_fields h4
  obtain ⟨hf1, hf2, _⟩ := makeTurnFinish_fields h
  refine ⟨?_, ?_⟩
  · rw [hf1, ha1]
    show t :: (makeTurnPawnPush b1 t).moves = t :: b.moves
    rw [hp1, hc1]
  · rw [hf2, ha2]
    show (makeTurnPawnPush b1 t).captures.length = _
    rw [hp2, hc2]

theorem undoTurnAdditional_fields {b b1 : Board} {t : Turn}
    (h : undoTurnAdditional b t = some b1) :
    b1.moves = b.moves ∧ b1.captures = b.captures := by
  unfold undoTurnAdditional at h
  split at h
  · split at h
    · cases h; simp
    · exact absurd h (by simp)
  · cases h; simp

theorem undoTurnCapture_fields (b : Board) (t : Turn) :
    (undoTurnCapture b t).moves = b.moves ∧
    (undoTurnCapture b t).captures = (if t.capture.isSome then b.captures.tail else b.captures) := by
  unfold undoTurnCapture
  split <;> simp_all

theorem undoTurnEnPassant_fields (b : Board) :
    (undoTurnEnPassant b).moves = b.moves ∧ (undoTurnEnPassant b).captures = b.captures := by
  unfold undoTurnEnPassant
  simp

theorem undoTurnClock_fields {b b1 : Board} (h : undoTurnClock b = some b1) :
    b1.moves = b.moves ∧ b1.captures = b.captures := by
  unfold undoTurnClock at h
  split at h
  · exact absurd h (by simp)
  · cases h; split <;> simp

theorem undo_turn_stacks {b b' : Board} {t : Turn}
    (h : b.undo_turn = some (some t, b')) :
    b.moves = t :: b'.moves ∧
    b'.captures = (if t.capture.isSome then b.captures.tail else b.captures) := by
  unfold Board.undo_turn at h
  cases hm : b.moves with
  | nil => rw [hm] at h; simp at h
  | cons turn rest =>
      rw [hm] at h
      obtain ⟨piece, hp, h⟩ := bindEqSome h
      obtain ⟨b3, h3, h⟩ := bindEqSome h
      obtain ⟨b6, h6, h⟩ := bindEqSome h
      simp only [Option.pure_def, Option.some.injEq, Prod.mk.injEq] at h
      obtain ⟨ht, hb⟩ := h
      obtain ⟨hm3, hc3⟩ := undoTurnAdditional_fields h3
      obtain ⟨hm6, hc6⟩ := undoTurnClock_fields h6
      obtain ⟨hmc, hcc⟩ := undoTurnCapture_fields b3 turn
      subst ht
      have hkeym : b6.moves = rest := by
        rw [hm6, (undoTurnEnPassant_fields _).1]
        show (undoTurnCapture b3 turn).moves = rest
        rw [hmc, hm3]
      have hkeyc : b6.captures = (if turn.capture.isSome then b.captures.tail else b.captures) := by
        rw [hc6, (undoTurnEnPassant_fields _).2]
        show (undoTurnCapture b3 turn).captures = _
        rw [hcc, hc3]
      have hbm : b'.moves = rest := by
        rw [← hb]; split
        · exact hkeym
        · exact hkeym
      have hbc : b'.captures = (if turn.capture.isSome then b.captures.tail else b.captures) := by
        rw [← hb]; split
        · exact hkeyc
        · exact hkeyc
      refine ⟨?_, hbc⟩
      rw [hbm]

theorem make_nonreset_clock {b b' : Board} {t : Turn}
    (hcap : t.capture = none) (hk : t.kind ≠ PieceType.Pawn)
    (h : b.make_turn t = some b') {c : Int} {rest : List Int}
    (hclk : b.half_move_clock = c :: rest) :
    b'.half_move_clock = (c + 1) :: rest := by
  unfold Board.make_turn at h
  rw [makeTurnCapture_nocap hcap] at h
  obtain ⟨b1, h1, h⟩ := bindEqSome h
  cases h1
  obtain ⟨piece, hp, h⟩ := bindEqSome h
  obtain ⟨b4, h4, h⟩ := bindEqSome h
  obtain ⟨_, _, hck4⟩ := makeTurnAdditional_fields h4
  obtain ⟨_, _, c', rest', hckb, hck'⟩ := makeTurnFinish_fields h
  have hchain : b4.half_move_clock = c :: rest := by
    rw [hck4]
    show (makeTurnPawnPush b t).half_move_clock = c :: rest
    rw [makeTurnPawnPush_nonpawn hk]
    exact hclk
  rw [hchain] at hckb
  cases hckb
  exact hck'

theorem makeTurns_nonreset : ∀ (ts : List Turn) (b b' : Board) (c : Int) (rest : List Int),
    (∀ t ∈ ts, t.capture = none ∧ t.kind ≠ PieceType.Pawn) →
    makeTurns b ts = some b' → b.half_move_clock = c :: rest →
    b'.half_move_clock = (c + ts.length) :: rest := by
  intro ts
  induction ts with
  | nil =>
      intro b b' c rest _ h hclk
      simp only [makeTurns, List.foldlM_nil, Option.pure_def, Option.some.injEq] at h
      subst h
      simpa using hclk
  | cons t ts ih =>
      intro b b' c rest hall h hclk
      simp only [makeTurns, List.foldlM_cons] at h
      obtain ⟨b1, h1, h2⟩ := bindEqSome h
      have hh := hall t (List.mem_cons_self t ts)
      have hclk1 := make_nonreset_clock hh.1 hh.2 h1 hclk
      have hres := ih b1 b' (c + 1) rest (fun u hu => hall u (List.mem_cons_of_mem t hu)) h2 hclk1
      rw [hres]
      congr 1
      simp only [List.length_cons]
      push_cast
      ring

theorem capinv_make {b b' : Board} {t : Turn} (h : b.make_turn t = some b')
    (hinv : CapInv b) : CapInv b' := by
  obtain ⟨hm, hc⟩ := make_turn_stacks h
  unfold CapInv at hinv ⊢
  rw [hm, hc, hinv, List.filter_cons]
  split <;> simp_all [Nat.add_comm]

theorem capinv_undo {b b' : Board} {t : Turn} (h : b.undo_turn = some (some t, b'))
    (hinv : CapInv b) : CapInv b' := by
  obtain ⟨hm, hc⟩ := undo_turn_stacks h
  unfold CapInv at hinv ⊢
  rw [hm, List.filter_cons] at hinv
  rw [hc]
  by_cases hcap : t.capture.isSome
  · simp only [hcap, if_true] at hinv ⊢
    simp only [List.length_cons] at hinv
    simp only [List.length_tail]
    omega
  · simp only [hcap, if_false] at hinv ⊢
    simp only [Bool.false_eq_true] at hinv
    exact hinv

theorem playGame_reachable : ∀ (ts : List Turn) (b b' : Board),
    Reachable b → Board.playGame b ts = some b' → Reachable b' := by
  intro ts
  induction ts with
  | nil => intro b b' hr h; simp only [Board.playGame] at h; cases h; exact hr
  | cons t ts ih =>
      intro b b' hr h
      rw [Board.playGame] at h
      cases hg : b.get_moves with
      | none => rw [hg] at h; exact absurd h (by simp)
      | some p =>
          obtain ⟨ms, b1⟩ := p
          rw [hg] at h
          have h2 : (if t ∈ ms then ((b1.make_turn t).bind fun b2 => Board.playGame b2 ts)
              else none) = some b' := h
          by_cases hm : t ∈ ms
          · rw [if_pos hm] at h2
            cases hmk : b1.make_turn t with
            | none => rw [hmk] at h2; exact absurd h2 (by simp)
            | some b2 =>
                rw [hmk] at h2
                have h3 : Board.playGame b2 ts = some b' := h2
                exact ih b2 b' (Reachable.step hr hg hm hmk) h3
          · rw [if_neg hm] at h2
            exact absurd h2 (by simp)

/-- Claim C9: on a board whose move history is empty, `undo_turn` returns the
"nothing to undo" signal and leaves the board unchanged. -/
theorem C9_undo_empty : ∀ b : Board, b.moves = [] → b.undo_turn = some (none, b) := by
  intro b h
  unfold Board.undo_turn
  rw [h]

theorem C9_undo_empty_witness :
    Board.from_start.moves = [] ∧ Board.from_start.undo_turn = some (none, Board.from_start) :=
  ⟨rfl, C9_undo_empty Board.from_start rfl⟩

/-- Claim C8: `is_50_move_rule` is true exactly when the top half-move-clock
frame is at least 100; a run of `make_turn` calls without captures or pawn
moves adds its length to the top frame, so 100 such half-moves (from a
non-negative frame) make `is_50_move_rule` true, and it stays true as long
as the run continues. -/
theorem C8_fifty_move :
    (∀ (b : Board) (c : Int) (rest : List Int), b.half_move_clock = c :: rest →
      (b.is_50_move_rule = some true ↔ 100 ≤ c)) ∧
    (∀ (ts : List Turn) (b b' : Board) (c : Int) (rest : List Int),
      (∀ t ∈ ts, t.capture = none ∧ t.kind ≠ PieceType.Pawn) →
      makeTurns b ts = some b' → b.half_move_clock = c :: rest →
      b'.half_move_clock = (c + ts.length) :: rest) ∧
    (∀ (ts : List Turn) (b b' : Board) (c : Int) (rest : List Int),
      (∀ t ∈ ts, t.capture = none ∧ t.kind ≠ PieceType.Pawn) →
      makeTurns b ts = some b' → b.half_move_clock = c :: rest →
      0 ≤ c → 100 ≤ (ts.length : Int) →
      b'.is_50_move_rule = some true) := by
  refine ⟨?_, makeTurns_nonreset, ?_⟩
  · intro b c rest h
    simp [Board.is_50_move_rule, h]
  · intro ts b b' c rest hall h hclk hc hlen
    have h2 := makeTurns_nonreset ts b b' c rest hall h hclk
    simp [Board.is_50_move_rule, h2]
    omega

/-- Claim C10: on every board reachable from the start by `make_turn` and
matching `undo_turn` calls, the length of `moves` is the ply count and the
length of `captures` equals the number of executed turns whose `capture`
field is set; both facts are preserved by every successful `make_turn` and
every undoing `undo_turn`. -/
theorem C10_stack_lengths :
    (∀ (b : Board) (n : Nat), AnyReach b n → b.moves.length = n ∧ CapInv b) ∧
    (∀ (b : Board) (t : Turn) (b' : Board), b.make_turn t = some b' →
      b'.moves.length = b.moves.length + 1 ∧ (CapInv b → CapInv b')) ∧
    (∀ (b : Board) (t : Turn) (b' : Board), b.undo_turn = some (some t, b') →
      b.moves.length = b'.moves.length + 1 ∧ (CapInv b → CapInv b')) := by
  refine ⟨?_, ?_, ?_⟩
  · intro b n h
    induction h with
    | start => exact ⟨rfl, rfl⟩
    | make _ hmk ih =>
        obtain ⟨hlen, hinv⟩ := ih
        obtain ⟨hm, _⟩ := make_turn_stacks hmk
        refine ⟨?_, capinv_make hmk hinv⟩
        rw [hm]
        simp [hlen]
    | undo _ hu ih =>
        obtain ⟨hlen, hinv⟩ := ih
        obtain ⟨hm, _⟩ := undo_turn_stacks hu
        refine ⟨?_, capinv_undo hu hinv⟩
        rw [hm] at hlen
        simpa using hlen
  · intro b t b' h
    obtain ⟨hm, _⟩ := make_turn_stacks h
    exact ⟨by rw [hm]; simp, capinv_make h⟩
  · intro b t b' h
    obtain ⟨hm, _⟩ := undo_turn_stacks h
    exact ⟨by rw [hm]; simp, capinv_undo h⟩

theorem C10_stack_lengths_witness :
    Board.from_start.moves.length = 0 ∧ CapInv Board.from_start :=
  C10_stack_lengths.1 Board.from_start 0 AnyReach.start

set_option maxHeartbeats 16000000 in
set_option maxRecDepth 10000 in
theorem B8_reached : Board.playGame Board.from_start c1Script = some B8 := by decide

theorem B8_reachable : Reachable B8 :=
  playGame_reachable c1Script Board.from_start B8 Reachable.start B8_reached

set_option maxHeartbeats 16000000 in
set_option maxRecDepth 10000 in
theorem c2seg1_played : Board.playGame Board.from_start c2Seg1 = some C2Seg1End := by decide

set_option maxHeartbeats 16000000 in
set_option maxRecDepth 10000 in
theorem c2seg2_played : Board.playGame C2Seg1End c2Seg2 = some C2Seg2End := by decide

set_option maxHeartbeats 16000000 in
set_option maxRecDepth 10000 in
theorem c2seg3_played : Board.playGame C2Seg2End c2Seg3 = some C2B := by decide

theorem C2B_reachable : Reachable C2B :=
  playGame_reachable c2Seg3 C2Seg2End C2B
    (playGame_reachable c2Seg2 C2Seg1End C2Seg2End
      (playGame_reachable c2Seg1 Board.from_start C2Seg1End Reachable.start c2seg1_played)
      c2seg2_played)
    c2seg3_played

set_option maxHeartbeats 16000000 in
set_option maxRecDepth 10000 in
/-- Claim C1: the round-trip law fails.  `B8` is reachable by legal play;
the generator at `B8` offers the promotion-by-capture turn `promoQa7b8`;
making that turn and undoing it does not restore `B8`: the white pawn on a7
comes back as a white knight (the captured piece's kind), because
`pawn_capture` stores the captured piece's kind in the turn and `undo_turn`
restores the promoted pawn to `promote_from`. -/
theorem C1_round_trip :
    Reachable B8 ∧ promoQa7b8 ∈ B8.genList ∧
    (B8.at_position ⟨48⟩).map Piece.kind = some PieceType.Pawn ∧
    ((B8.roundTrip promoQa7b8).bind (fun b => b.at_position ⟨48⟩)).map Piece.kind =
      some PieceType.Knight ∧
    (B8.roundTrip promoQa7b8).map (fun b => b == B8) = some false := by
  refine ⟨B8_reachable, ?_, ?_, ?_, ?_⟩ <;> decide

set_option maxHeartbeats 16000000 in
set_option maxRecDepth 10000 in
/-- Claim C2: legality soundness fails.  `C2B` is reachable by legal play
with White to move; the generator offers the rook capture `rxb8`; after
making that turn on `C2B`, White's own king is reported attacked by
`is_king_attacked` (the king on d7 is in check from the rook on h7). -/
theorem C2_legality_soundness :
    Reachable C2B ∧ C2B.whose_turn = Color.White ∧ rxb8 ∈ C2B.genList ∧
    (C2B.make_turn rxb8).bind (fun b => b.is_king_attacked Color.White) = some true := by
  refine ⟨C2B_reachable, rfl, ?_, ?_⟩ <;> decide

set_option maxHeartbeats 16000000 in
set_option maxRecDepth 10000 in
/-- Claim C3: the perft values fail already at depth 1: the engine counts 16
moves from the starting position, not 20 (the duplicated orthogonal
`KNIGHT_MOVES` offsets leave both knights without a single legal move). -/
theorem C3_perft :
    (Board.perft 1 Board.from_start).map Prod.fst = some 16 ∧
    (((Board.perft 1 Board.from_start).map Prod.fst) == some 20) = false := by
  have h : (Board.perft 1 Board.from_start).map Prod.fst = some 16 := by decide
  exact ⟨h, by rw [h]; decide⟩

set_option maxHeartbeats 16000000 in
set_option maxRecDepth 10000 in
/-- Claim C4: castling through an attacked square is not rejected.  On
`c4Board` the white bishop on d6 attacks f8 — the square between the black
king on e8 (column 4) and its castling destination g8 (column 6) — yet the
king-side castling turn `c4Castle` is in the generated move list: the
attacked-squares loop of `castling_single_move` runs over the empty range
`min(col+1, 6-1) .. max(col+1, 6-1)`. -/
theorem C4_castling_attacked :
    c4Board.whose_turn = Color.Black ∧
    c4Board.are_pieces_attacking f8 Color.White = true ∧
    c4Castle.kind = PieceType.King ∧ c4Castle.from' = ⟨60⟩ ∧ c4Castle.to' = ⟨62⟩ ∧
    Position.row f8 = 7 ∧ Position.row ⟨60⟩ = 7 ∧ Position.row ⟨62⟩ = 7 ∧
    Position.col ⟨60⟩ = 4 ∧ Position.col f8 = 5 ∧ Position.col ⟨62⟩ = 6 ∧
    c4Castle ∈ c4Board.genList := by decide

/-- Claim C5: the pawn predicate is not forward-only.  The white pawn on e4
(row 3) of `c5Board` satisfies `could_move_to` towards d3 (row 2), a square
strictly behind it: the direction test of `could_pawn_move_to` multiplies
`from.row - to.row` (instead of `to.row - from.row`) by the color's
direction, accepting backward moves and rejecting forward ones. -/
theorem C5_pawn_forward :
    c5WhitePawn.kind = PieceType.Pawn ∧ c5WhitePawn.color = Color.White ∧
    c5Board.at_position ⟨28⟩ = some c5WhitePawn ∧
    c5WhitePawn.could_move_to ⟨28⟩ ⟨19⟩ c5Board = true ∧
    Position.row ⟨28⟩ = 3 ∧ Position.row ⟨19⟩ = 2 ∧
    Position.row ⟨19⟩ < Position.row ⟨28⟩ := by decide

/-- Claim C6: the rook predicate is not "same row or same column".  From a1
to a2 (same column 0, distinct squares) it returns false, and from d1 (row 0,
column 3) to f4 (row 3, column 5) — neither same row nor same column — it
returns true: `could_rook_move_to` compares `from.col()` with `to.row()` in
its second disjunct. -/
theorem C6_rook_line :
    c6Rook.kind = PieceType.Rook ∧
    (Position.col ⟨0⟩ = 0 ∧ Position.col ⟨8⟩ = 0 ∧ Position.row ⟨0⟩ = 0 ∧ Position.row ⟨8⟩ = 1 ∧
      ((⟨0⟩ : Position) == (⟨8⟩ : Position)) = false ∧
      c6Rook.could_move_to ⟨0⟩ ⟨8⟩ Board.default = false) ∧
    (Position.row ⟨3⟩ = 0 ∧ Position.row ⟨29⟩ = 3 ∧ Position.col ⟨3⟩ = 3 ∧ Position.col ⟨29⟩ = 5 ∧
      c6Rook.could_move_to ⟨3⟩ ⟨29⟩ Board.default = true) := by decide

set_option maxHeartbeats 16000000 in
set_option maxRecDepth 10000 in
/-- Claim C7: a generated turn's `kind` differs from the kind of the moved
piece.  At `c7Board` the piece on a7 is a white pawn, yet the generated
promotion-by-capture turn `c7Promo` onto the black knight records kind
`Knight`: `pawn_capture` passes the captured piece's kind to
`Turn::new_promotion`. -/
theorem C7_turn_kind :
    c7Promo ∈ c7Board.genList ∧
    (c7Board.at_position c7Promo.from').map Piece.kind = some PieceType.Pawn ∧
    (c7Board.at_position c7Promo.to').map Piece.kind = some PieceType.Knight ∧
    c7Promo.kind = PieceType.Knight ∧
    (c7Promo.kind == PieceType.Pawn) = false := by decide

set_option maxHeartbeats 16000000 in
set_option maxRecDepth 10000 in
theorem C8_fifty_move_witness : c8End.is_50_move_rule = some true :=
  C8_fifty_move.2.2 c8Turns c8Board c8End 0 [] (by decide) (by decide) rfl
    (by decide) (by decide)

end Chs
